import Mathlib

/-!
Shallow embedding of the grading-council service of the AI-oral-exam
repository (`backend/app/services/llm.py`, with data models from
`backend/app/models/grading.py` and `backend/app/models/assignment.py`).

Modelling conventions:
* Python numbers (ints and floats) are modelled as rationals (`ℚ`);
  Python `round(x, n)` is modelled by `pyRound` (round half to even at
  `n` decimal digits).
* Python dicts (insertion-ordered) are modelled as association lists
  built by left folds that mirror the dict-building loops.
* `asyncio.gather(..., return_exceptions=True)` fan-outs are modelled
  by per-model outcome oracles (`String → Option GradeOutcome`):
  `none` stands for a model whose call or parse raised an exception,
  `some o` for a success.
* Fallible Python code (code that can raise) is modelled with `Except`;
  in particular the unguarded division `score / max_score` in
  `calculate_agreement` yields `Except.error ()` when `max_score = 0`,
  mirroring Python's `ZeroDivisionError`.
* Python's `set()` used in `aggregate_grades` has unspecified iteration
  order; it is modelled as first-occurrence-order deduplication
  (`dedupFirst`), one admissible order.
-/

/-- Mirrors `RubricCategory` in `backend/app/models/assignment.py`
(`name`, `description`, `max_points`, `weight`). -/
structure RubricCategory where
  name : String
  description : String
  max_points : ℚ
  weight : ℚ
deriving DecidableEq

/-- Mirrors `CategoryScore` in `backend/app/models/grading.py`:
one grader's score for one rubric category. -/
structure CategoryScore where
  category : String
  score : ℚ
  max_score : ℚ
  evidence : String
  feedback : String
deriving DecidableEq

instance : Inhabited CategoryScore := ⟨⟨"", 0, 0, "", ""⟩⟩

/-- Mirrors the per-model success value of `grade_with_model`
(a `GradingResult` plus the `LLMResponse` metadata used by
`grade_with_council` to build a grade dict). -/
structure GradeOutcome where
  scores : List CategoryScore
  overall_feedback : String
  confidence : ℚ
  prompt_tokens : ℕ
  completion_tokens : ℕ
  latency_ms : ℕ
deriving DecidableEq

/-- Mirrors one entry of `round1_grades` / `round2_grades` built in
`grade_with_council` (a dict with the model name and the grading data). -/
structure Grade where
  model : String
  scores : List CategoryScore
  overall_feedback : String
  confidence : ℚ
  prompt_tokens : ℕ
  completion_tokens : ℕ
  latency_ms : ℕ
deriving DecidableEq

/-- Mirrors the dict returned by `aggregate_grades`. -/
structure FinalGradeOut where
  scores : List CategoryScore
  total_score : ℚ
  max_possible_score : ℚ
  percentage : ℚ
  overall_feedback : String
deriving DecidableEq

/-- Mirrors the dict returned by `grade_with_council`. -/
structure CouncilOutput where
  round1_grades : List Grade
  round2_grades : Option (List Grade)
  final_grade : FinalGradeOut
  agreement_score : ℚ
  rounds_used : ℕ
deriving DecidableEq

/-- The exceptions `grade_with_council` can let escape: `ValueError
("All grading models failed")` and Python's `ZeroDivisionError`
raised by the unguarded division in `calculate_agreement`. -/
inductive CouncilError where
  | allGradersFailed
  | zeroDivision
deriving DecidableEq

/-! ### Python `round` on rationals -/

/-- Round a rational to an integer, ties to even (Python's rounding mode).
Uses the executable `Rat.floor`. -/
def roundHalfEven (q : ℚ) : ℤ :=
  if q - q.floor < 1 / 2 then q.floor
  else if 1 / 2 < q - q.floor then q.floor + 1
  else if q.floor % 2 = 0 then q.floor else q.floor + 1

/-- Model of Python `round(q, n)`: round half to even at `n` decimal digits. -/
def pyRound (q : ℚ) (n : ℕ) : ℚ :=
  (roundHalfEven (q * 10 ^ n) : ℚ) / 10 ^ n

theorem ratFloor_eq (q : ℚ) : q.floor = ⌊q⌋ :=
  (Rat.floor_def' q).trans Rat.floor_def.symm

theorem roundHalfEven_le (q : ℚ) : roundHalfEven q ≤ ⌊q⌋ + 1 := by
  unfold roundHalfEven
  rw [ratFloor_eq]
  split_ifs <;> omega

theorem le_roundHalfEven (q : ℚ) : ⌊q⌋ ≤ roundHalfEven q := by
  unfold roundHalfEven
  rw [ratFloor_eq]
  split_ifs <;> omega

theorem roundHalfEven_mono {x y : ℚ} (h : x ≤ y) :
    roundHalfEven x ≤ roundHalfEven y := by
  rcases lt_or_eq_of_le (Int.floor_mono h) with hf | hf
  · calc roundHalfEven x ≤ ⌊x⌋ + 1 := roundHalfEven_le x
      _ ≤ ⌊y⌋ := by omega
      _ ≤ roundHalfEven y := le_roundHalfEven y
  · have hxy : x - (⌊x⌋ : ℚ) ≤ y - (⌊y⌋ : ℚ) := by
      rw [hf]
      linarith
    unfold roundHalfEven
    rw [ratFloor_eq, ratFloor_eq, hf]
    rw [hf] at hxy
    split_ifs <;> first | omega | linarith

theorem roundHalfEven_intCast (z : ℤ) : roundHalfEven (z : ℚ) = z := by
  unfold roundHalfEven
  rw [ratFloor_eq, Int.floor_intCast]
  norm_num

theorem pyRound_mono {x y : ℚ} (n : ℕ) (h : x ≤ y) :
    pyRound x n ≤ pyRound y n := by
  unfold pyRound
  have h1 : x * 10 ^ n ≤ y * 10 ^ n := by
    apply mul_le_mul_of_nonneg_right h
    positivity
  have h2 : (roundHalfEven (x * 10 ^ n) : ℚ) ≤ (roundHalfEven (y * 10 ^ n) : ℚ) := by
    exact_mod_cast roundHalfEven_mono h1
  apply div_le_div_of_nonneg_right h2
  positivity

/-! ### Insertion-ordered maps (Python dicts) as association lists -/

/-- Deduplicate a list keeping first occurrences. Models the value set of
Python's `set(...)` (whose true iteration order is unspecified). -/
def dedupFirst (l : List String) : List String :=
  l.foldl (fun acc s => if s ∈ acc then acc else acc ++ [s]) []

theorem dedupFirst_concat (l : List String) (a : String) :
    dedupFirst (l ++ [a]) =
      if a ∈ dedupFirst l then dedupFirst l else dedupFirst l ++ [a] := by
  simp [dedupFirst, List.foldl_append]

theorem mem_dedupFirst (l : List String) : ∀ s, s ∈ dedupFirst l ↔ s ∈ l := by
  induction l using List.reverseRecOn with
  | nil => simp [dedupFirst]
  | append_singleton l a ih =>
    intro s
    rw [dedupFirst_concat]
    by_cases h : a ∈ dedupFirst l
    · rw [if_pos h, ih s]
      constructor
      · intro hs
        exact List.mem_append_left _ hs
      · intro hs
        rcases List.mem_append.mp hs with hs | hs
        · exact hs
        · rw [List.mem_singleton.mp hs]
          exact (ih a).mp h
    · rw [if_neg h]
      simp [ih s]

theorem nodup_dedupFirst (l : List String) : (dedupFirst l).Nodup := by
  induction l using List.reverseRecOn with
  | nil => simp [dedupFirst]
  | append_singleton l a ih =>
    rw [dedupFirst_concat]
    by_cases h : a ∈ dedupFirst l
    · simpa [h] using ih
    · rw [if_neg h]
      exact ih.append (List.nodup_singleton a)
        (fun x hx hx' => h (List.mem_singleton.mp hx' ▸ hx))

/-- The distinct category names of a list of `CategoryScore`s, in first
occurrence order — the key order of the Python dicts built by
`calculate_agreement` and `aggregate_grades`. -/
def firstOccKeys (ps : List CategoryScore) : List String :=
  dedupFirst (ps.map (fun s => s.category))

/-- One step of dict-building: append the value to an existing entry or
insert a fresh entry at the end (Python `dict` insertion semantics). -/
def assocStep {β : Type} (init : CategoryScore → β) (upd : β → CategoryScore → β)
    (m : List (String × β)) (s : CategoryScore) : List (String × β) :=
  if s.category ∈ m.map Prod.fst then
    m.map (fun e => if e.1 = s.category then (e.1, upd e.2 s) else e)
  else m ++ [(s.category, init s)]

/-- Dict-building loop over a list of category scores. -/
def assocFold {β : Type} (init : CategoryScore → β) (upd : β → CategoryScore → β)
    (ps : List CategoryScore) : List (String × β) :=
  ps.foldl (assocStep init upd) []

/-- The value a dict entry holds after all scores of its category have been
folded in: `init` on the first score, `upd` for each later one. -/
def groupVal {β : Type} (init : CategoryScore → β) (upd : β → CategoryScore → β) :
    List CategoryScore → β
  | [] => init default
  | q :: t => t.foldl upd (init q)

theorem groupVal_concat {β : Type} (init : CategoryScore → β) (upd) (q : CategoryScore)
    (t : List CategoryScore) (p : CategoryScore) :
    groupVal init upd ((q :: t) ++ [p]) = upd (groupVal init upd (q :: t)) p := by
  simp [groupVal, List.foldl_append]

theorem mem_firstOccKeys (ps : List CategoryScore) (c : String) :
    c ∈ firstOccKeys ps ↔ ∃ s ∈ ps, s.category = c := by
  unfold firstOccKeys
  rw [mem_dedupFirst]
  simp [eq_comm]

theorem filter_category_ne_nil_iff (ps : List CategoryScore) (c : String) :
    ps.filter (fun s => s.category == c) ≠ [] ↔ ∃ s ∈ ps, s.category = c := by
  rw [ne_eq, List.filter_eq_nil_iff]
  push_neg
  simp

/-- Characterization of the dict-building loop: the resulting association
list has one entry per distinct category (in first-occurrence order), whose
value is the group fold of all scores of that category, in order. -/
theorem assocFold_eq {β : Type} (init : CategoryScore → β) (upd : β → CategoryScore → β)
    (ps : List CategoryScore) :
    assocFold init upd ps =
      (firstOccKeys ps).map
        (fun c => (c, groupVal init upd (ps.filter (fun s => s.category == c)))) := by
  induction ps using List.reverseRecOn with
  | nil => simp [assocFold, firstOccKeys, dedupFirst]
  | append_singleton ps p ih =>
    have hfold : assocFold init upd (ps ++ [p]) = assocStep init upd (assocFold init upd ps) p := by
      simp [assocFold, List.foldl_append]
    have hkeys : firstOccKeys (ps ++ [p]) =
        if p.category ∈ firstOccKeys ps then firstOccKeys ps
        else firstOccKeys ps ++ [p.category] := by
      unfold firstOccKeys
      rw [List.map_append, List.map_singleton, dedupFirst_concat]
    have hfilter : ∀ c : String, (ps ++ [p]).filter (fun s => s.category == c) =
        ps.filter (fun s => s.category == c) ++ if p.category = c then [p] else [] := by
      intro c
      rw [List.filter_append]
      by_cases hc : p.category = c
      · have hb : (p.category == c) = true := beq_iff_eq.mpr hc
        rw [if_pos hc]
        simp [List.filter_cons, hb]
      · have hb : (p.category == c) = false := beq_eq_false_iff_ne.mpr hc
        rw [if_neg hc]
        simp [List.filter_cons, hb]
    have hfst : ((firstOccKeys ps).map
        (fun c => (c, groupVal init upd (ps.filter (fun s => s.category == c))))).map
          Prod.fst = firstOccKeys ps := by
      rw [List.map_map]
      simp [Function.comp_def]
    rw [hfold, ih, hkeys]
    unfold assocStep
    rw [hfst]
    by_cases hmem : p.category ∈ firstOccKeys ps
    · rw [if_pos hmem, if_pos hmem, List.map_map]
      apply List.map_congr_left
      intro c hc
      simp only [Function.comp]
      by_cases hcp : c = p.category
      · have hne : ps.filter (fun s => s.category == c) ≠ [] := by
          apply (filter_category_ne_nil_iff ps c).mpr
          exact (mem_firstOccKeys ps c).mp hc
        obtain ⟨q, t, hqt⟩ : ∃ q t, ps.filter (fun s => s.category == c) = q :: t := by
          cases hft : ps.filter (fun s => s.category == c) with
          | nil => exact absurd hft hne
          | cons q t => exact ⟨q, t, rfl⟩
        rw [hfilter c, if_pos hcp.symm, hqt, groupVal_concat]
        simp [hcp]
      · have hb : ¬ p.category = c := fun h => hcp h.symm
        rw [hfilter c, if_neg hb, List.append_nil]
        simp [hcp]
    · rw [if_neg hmem, if_neg hmem, List.map_append]
      congr 1
      · apply List.map_congr_left
        intro c hc
        have hcp : c ≠ p.category := fun h => hmem (h ▸ hc)
        have hb : ¬ p.category = c := fun h => hcp h.symm
        rw [hfilter c, if_neg hb, List.append_nil]
      · have hnil : ps.filter (fun s => s.category == p.category) = [] := by
          by_contra hne
          exact hmem ((mem_firstOccKeys ps p.category).mpr
            ((filter_category_ne_nil_iff ps p.category).mp hne))
        rw [List.map_singleton, hfilter p.category, if_pos rfl, hnil, List.nil_append]
        rfl


/-! ### `calculate_agreement` (`backend/app/services/llm.py`, lines 396-426) -/

/-- All `CategoryScore` entries of a list of grades, in iteration order of
`for grade in grades: for score in grade["scores"]`. -/
def allPairs (grades : List Grade) : List CategoryScore :=
  (grades.map (fun g => g.scores)).flatten

/-- First entry of a category in `all_scores`: the singleton normalized
score `score / max_score` (line 409 of the source). -/
def normInit (s : CategoryScore) : List ℚ :=
  [s.score / s.max_score]

/-- Later entries append their normalized score. -/
def normUpd (xs : List ℚ) (s : CategoryScore) : List ℚ :=
  xs ++ [s.score / s.max_score]

/-- One step of building `all_scores`; Python raises `ZeroDivisionError`
when `score["max_score"]` is zero, modelled as `Except.error ()`. -/
def scoreStep (m : List (String × List ℚ)) (s : CategoryScore) :
    Except Unit (List (String × List ℚ)) :=
  if s.max_score = 0 then .error () else .ok (assocStep normInit normUpd m s)

/-- The `all_scores` dict of `calculate_agreement`, or a division error. -/
def collectScores (grades : List Grade) : Except Unit (List (String × List ℚ)) :=
  (allPairs grades).foldlM scoreStep []

/-- Population variance as computed at lines 414-417 of the source:
mean first, then mean of squared deviations. -/
def popVar (xs : List ℚ) : ℚ :=
  (xs.map (fun s => (s - xs.sum / xs.length) ^ 2)).sum / xs.length

/-- Mirrors `calculate_agreement`: 1.0 for fewer than two grades; otherwise
collect normalized scores per category, take the variance of every category
with more than one entry, and map the average variance to
`max(0, 1 - min(4·avg, 1))`. The unguarded division propagates as an error. -/
def calculate_agreement (grades : List Grade) : Except Unit ℚ :=
  if grades.length < 2 then .ok 1
  else do
    let all_scores ← collectScores grades
    let variances := (all_scores.filter (fun kv => decide (1 < kv.2.length))).map
      (fun kv => popVar kv.2)
    if variances = [] then pure 1
    else
      let avg_variance := variances.sum / variances.length
      pure (max 0 (1 - min (avg_variance * 4) 1))

/-! Spec-side description of the agreement computation, following the
spec's words (for comparison with the implementation above). -/

/-- The normalized scores reported for category `c`, in report order. -/
def normScoresFor (gs : List Grade) (c : String) : List ℚ :=
  ((allPairs gs).filter (fun s => s.category == c)).map (fun s => s.score / s.max_score)

/-- Per-category population variances over categories with at least two
contributed score entries, in first-occurrence category order. -/
def specVariances (gs : List Grade) : List ℚ :=
  (firstOccKeys (allPairs gs)).filterMap (fun c =>
    if 1 < (normScoresFor gs c).length then some (popVar (normScoresFor gs c)) else none)

/-- Agreement as described by the spec: 1 for fewer than two results, 1 when
no category has two contributions, else `max(0, 1 − min(4·avgVariance, 1))`. -/
def specAgreement (gs : List Grade) : ℚ :=
  if gs.length < 2 then 1
  else if specVariances gs = [] then 1
  else max 0 (1 - min ((specVariances gs).sum / (specVariances gs).length * 4) 1)

/-- Number of graders that scored category `c` (the claim counts graders,
the code counts contributed score entries). -/
def graderCount (gs : List Grade) (c : String) : ℕ :=
  (gs.filter (fun g => g.scores.any (fun s => s.category == c))).length

/-- Variances of categories with at least two contributing GRADERS,
reading the claim literally. -/
def claimVariances (gs : List Grade) : List ℚ :=
  (firstOccKeys (allPairs gs)).filterMap (fun c =>
    if 2 ≤ graderCount gs c then some (popVar (normScoresFor gs c)) else none)

/-- Agreement as the claim words it, with categories filtered by the
number of contributing graders rather than contributed entries. -/
def claimAgreement (gs : List Grade) : ℚ :=
  if gs.length < 2 then 1
  else if claimVariances gs = [] then 1
  else max 0 (1 - min ((claimVariances gs).sum / (claimVariances gs).length * 4) 1)

/-! ### Bridge lemmas for `calculate_agreement` -/

theorem foldl_normUpd (t : List CategoryScore) : ∀ acc : List ℚ,
    t.foldl normUpd acc = acc ++ t.map (fun s => s.score / s.max_score) := by
  induction t with
  | nil => intro acc; simp
  | cons q t ih =>
    intro acc
    rw [List.foldl_cons, ih, List.map_cons]
    simp [normUpd]

theorem groupVal_norm (q : CategoryScore) (t : List CategoryScore) :
    groupVal normInit normUpd (q :: t) = (q :: t).map (fun s => s.score / s.max_score) := by
  rw [groupVal, foldl_normUpd]
  simp [normInit]

theorem foldlM_scoreStep_ok : ∀ (ps : List CategoryScore) (acc : List (String × List ℚ)),
    (∀ s ∈ ps, s.max_score ≠ 0) →
    ps.foldlM scoreStep acc = .ok (ps.foldl (assocStep normInit normUpd) acc) := by
  intro ps
  induction ps with
  | nil => intro acc _; rfl
  | cons q t ih =>
    intro acc h
    have hq : q.max_score ≠ 0 := h q (List.mem_cons_self q t)
    have hstep : scoreStep acc q = .ok (assocStep normInit normUpd acc q) := by
      rw [scoreStep, if_neg hq]
    rw [List.foldlM_cons, hstep, List.foldl_cons]
    exact ih _ (fun s hs => h s (List.mem_cons_of_mem q hs))

theorem foldlM_scoreStep_max : ∀ (ps : List CategoryScore) (acc : List (String × List ℚ))
    (m : List (String × List ℚ)), ps.foldlM scoreStep acc = .ok m →
    ∀ s ∈ ps, s.max_score ≠ 0 := by
  intro ps
  induction ps with
  | nil => intro acc m _ s hs; cases hs
  | cons q t ih =>
    intro acc m h s hs
    by_cases hq : q.max_score = 0
    · rw [List.foldlM_cons] at h
      rw [show scoreStep acc q = .error () from by rw [scoreStep, if_pos hq]] at h
      exact Except.noConfusion h
    · rcases List.mem_cons.mp hs with rfl | hs'
      · exact hq
      · rw [List.foldlM_cons] at h
        rw [show scoreStep acc q = .ok (assocStep normInit normUpd acc q) from by
          rw [scoreStep, if_neg hq]] at h
        exact ih _ m h s hs'

theorem collectScores_eq_ok (gs : List Grade) (h : ∀ s ∈ allPairs gs, s.max_score ≠ 0) :
    collectScores gs = .ok (assocFold normInit normUpd (allPairs gs)) :=
  foldlM_scoreStep_ok (allPairs gs) [] h

theorem collectScores_ok_max (gs : List Grade) (m : List (String × List ℚ))
    (h : collectScores gs = .ok m) : ∀ s ∈ allPairs gs, s.max_score ≠ 0 :=
  foldlM_scoreStep_max (allPairs gs) [] m h

theorem assocFold_norm_eq (gs : List Grade) :
    assocFold normInit normUpd (allPairs gs) =
      (firstOccKeys (allPairs gs)).map (fun c => (c, normScoresFor gs c)) := by
  rw [assocFold_eq]
  apply List.map_congr_left
  intro c hc
  have hne : (allPairs gs).filter (fun s => s.category == c) ≠ [] := by
    apply (filter_category_ne_nil_iff _ c).mpr
    exact (mem_firstOccKeys _ c).mp hc
  cases hft : (allPairs gs).filter (fun s => s.category == c) with
  | nil => exact absurd hft hne
  | cons q t =>
    unfold normScoresFor
    rw [hft]
    rw [groupVal_norm q t]

theorem filter_len_map_popVar (keys : List String) (f : String → List ℚ) :
    ((keys.map (fun c => (c, f c))).filter (fun kv => decide (1 < kv.2.length))).map
        (fun kv => popVar kv.2) =
      keys.filterMap (fun c =>
        if 1 < (f c).length then some (popVar (f c)) else none) := by
  induction keys with
  | nil => rfl
  | cons c ks ih =>
    by_cases h : 1 < (f c).length
    · simp [List.filter_cons, List.filterMap_cons, h, ih]
    · simp [List.filter_cons, List.filterMap_cons, h, ih]

theorem except_bind_ok {α β : Type} (a : α) (f : α → Except Unit β) :
    (Except.ok a >>= f) = f a := rfl

theorem calculate_agreement_eq_spec (gs : List Grade)
    (h : ∀ s ∈ allPairs gs, s.max_score ≠ 0) :
    calculate_agreement gs = .ok (specAgreement gs) := by
  unfold calculate_agreement specAgreement
  by_cases hl : gs.length < 2
  · rw [if_pos hl, if_pos hl]
  · rw [if_neg hl, if_neg hl, collectScores_eq_ok gs h, except_bind_ok]
    have hvar : ((assocFold normInit normUpd (allPairs gs)).filter
          (fun kv => decide (1 < kv.2.length))).map (fun kv => popVar kv.2) =
        specVariances gs := by
      rw [assocFold_norm_eq, filter_len_map_popVar]
      rfl
    dsimp only
    rw [hvar]
    by_cases hv : specVariances gs = []
    · rw [if_pos hv, if_pos hv]
      rfl
    · rw [if_neg hv, if_neg hv]
      rfl

theorem calculate_agreement_spec (gs : List Grade) (v : ℚ)
    (h : calculate_agreement gs = .ok v) : v = specAgreement gs := by
  by_cases hl : gs.length < 2
  · rw [calculate_agreement, if_pos hl] at h
    rw [specAgreement, if_pos hl]
    exact (Except.ok.injEq _ _).mp h.symm
  · have hmax : ∀ s ∈ allPairs gs, s.max_score ≠ 0 := by
      rw [calculate_agreement, if_neg hl] at h
      cases hc : collectScores gs with
      | error e =>
        rw [hc] at h
        exact absurd h (by simp [Bind.bind, Except.bind])
      | ok m => exact collectScores_ok_max gs m hc
    rw [calculate_agreement_eq_spec gs hmax] at h
    exact ((Except.ok.injEq _ _).mp h).symm

theorem popVar_nonneg (xs : List ℚ) : 0 ≤ popVar xs := by
  unfold popVar
  apply div_nonneg
  · apply List.sum_nonneg
    intro x hx
    obtain ⟨s, _, rfl⟩ := List.mem_map.mp hx
    positivity
  · positivity

theorem specVariances_nonneg (gs : List Grade) :
    ∀ x ∈ specVariances gs, 0 ≤ x := by
  intro x hx
  obtain ⟨c, _, hc⟩ := List.mem_filterMap.mp hx
  by_cases h : 1 < (normScoresFor gs c).length
  · rw [if_pos h] at hc
    rw [← Option.some.injEq _ _ |>.mp hc]
    exact popVar_nonneg _
  · rw [if_neg h] at hc
    exact absurd hc (Option.noConfusion)

theorem specAgreement_nonneg (gs : List Grade) : 0 ≤ specAgreement gs := by
  unfold specAgreement
  split_ifs
  · norm_num
  · norm_num
  · exact le_max_left 0 _

theorem specAgreement_le_one (gs : List Grade) : specAgreement gs ≤ 1 := by
  unfold specAgreement
  split_ifs with h1 h2
  · norm_num
  · norm_num
  · apply max_le
    · norm_num
    · have havg : 0 ≤ (specVariances gs).sum / (specVariances gs).length * 4 := by
        apply mul_nonneg _ (by norm_num)
        apply div_nonneg
        · exact List.sum_nonneg (specVariances_nonneg gs)
        · positivity
      have hmin : 0 ≤ min ((specVariances gs).sum / (specVariances gs).length * 4) 1 :=
        le_min havg (by norm_num)
      linarith

/-! ### `aggregate_grades` (`backend/app/services/llm.py`, lines 429-480) -/

/-- The per-category accumulator dict value of `aggregate_grades`
(`scores`, `evidence`, `feedback` lists plus the first `max_score`). -/
structure CatAgg where
  scores : List ℚ
  evidence : List String
  feedback : List String
  max_score : ℚ
deriving DecidableEq

/-- A fresh `aggregated[cat]` entry (lines 439-445): the `max_score` is
taken from the first score seen for the category. -/
def aggInit (s : CategoryScore) : CatAgg :=
  ⟨[s.score], [s.evidence], [s.feedback], s.max_score⟩

/-- Appending one more score to an existing entry (lines 446-448). -/
def aggUpd (d : CatAgg) (s : CategoryScore) : CatAgg :=
  ⟨d.scores ++ [s.score], d.evidence ++ [s.evidence], d.feedback ++ [s.feedback],
    d.max_score⟩

/-- Weight lookup (line 457): `rubric_lookup.get(cat_name, default).weight`
where the dict comprehension keeps the LAST category of a duplicated name
and the default carries `weight = 1.0`. -/
def rubricWeight (rubric : List RubricCategory) (c : String) : ℚ :=
  match rubric.reverse.find? (fun cat => cat.name == c) with
  | some cat => cat.weight
  | none => 1

/-- Mirrors `aggregate_grades`: group scores by category (dict fold),
average each category, weight by the rubric, and combine feedback.
`round(·, 2)` / `round(·, 1)` are `pyRound`; `data["evidence"][0]` is
`headD ""` (the lists are nonempty by construction). -/
def aggregate_grades (grades : List Grade) (rubric : List RubricCategory) :
    FinalGradeOut :=
  let aggregated := assocFold aggInit aggUpd (allPairs grades)
  let final_scores := aggregated.map (fun kv =>
    { category := kv.1,
      score := pyRound (kv.2.scores.sum / kv.2.scores.length) 2,
      max_score := kv.2.max_score,
      evidence := kv.2.evidence.headD "",
      feedback := kv.2.feedback.headD "" : CategoryScore })
  let total_score := (aggregated.map
    (fun kv => kv.2.scores.sum / kv.2.scores.length * rubricWeight rubric kv.1)).sum
  let max_possible := (aggregated.map
    (fun kv => kv.2.max_score * rubricWeight rubric kv.1)).sum
  let combined_feedback :=
    String.intercalate " " (dedupFirst (grades.map (fun g => g.overall_feedback)))
  { scores := final_scores,
    total_score := pyRound total_score 2,
    max_possible_score := pyRound max_possible 2,
    percentage :=
      pyRound (if 0 < max_possible then total_score / max_possible * 100 else 0) 1,
    overall_feedback := combined_feedback.take 500 }

/-! Spec-side description of the aggregation, following the spec's words. -/

/-- The raw scores contributed for category `c`, in report order. -/
def rawScoresFor (gs : List Grade) (c : String) : List ℚ :=
  ((allPairs gs).filter (fun s => s.category == c)).map (fun s => s.score)

/-- Mean of the raw scores contributed for category `c`. -/
def specMeanScore (gs : List Grade) (c : String) : ℚ :=
  (rawScoresFor gs c).sum / (rawScoresFor gs c).length

/-- The `max_score` reported for `c` by the first contributing grader. -/
def specCatMaxScore (gs : List Grade) (c : String) : ℚ :=
  match (allPairs gs).filter (fun s => s.category == c) with
  | [] => 0
  | s :: _ => s.max_score

/-- The first contributing grader's evidence for `c`, verbatim. -/
def specFirstEvidence (gs : List Grade) (c : String) : String :=
  match (allPairs gs).filter (fun s => s.category == c) with
  | [] => ""
  | s :: _ => s.evidence

/-- The first contributing grader's feedback for `c`, verbatim. -/
def specFirstFeedback (gs : List Grade) (c : String) : String :=
  match (allPairs gs).filter (fun s => s.category == c) with
  | [] => ""
  | s :: _ => s.feedback

/-- `totalScore = Σ(meanScore_c · weight_c)` over the reported categories. -/
def specTotalScore (gs : List Grade) (rubric : List RubricCategory) : ℚ :=
  ((firstOccKeys (allPairs gs)).map
    (fun c => specMeanScore gs c * rubricWeight rubric c)).sum

/-- `maxPossibleScore = Σ(maxScore_c · weight_c)` over the reported categories. -/
def specMaxPossibleScore (gs : List Grade) (rubric : List RubricCategory) : ℚ :=
  ((firstOccKeys (allPairs gs)).map
    (fun c => specCatMaxScore gs c * rubricWeight rubric c)).sum

theorem foldl_aggUpd (t : List CategoryScore) : ∀ d : CatAgg,
    t.foldl aggUpd d =
      ⟨d.scores ++ t.map (fun s => s.score), d.evidence ++ t.map (fun s => s.evidence),
        d.feedback ++ t.map (fun s => s.feedback), d.max_score⟩ := by
  induction t with
  | nil => intro d; simp
  | cons q t ih =>
    intro d
    rw [List.foldl_cons, ih]
    simp [aggUpd]

theorem groupVal_agg (q : CategoryScore) (t : List CategoryScore) :
    groupVal aggInit aggUpd (q :: t) =
      ⟨(q :: t).map (fun s => s.score), (q :: t).map (fun s => s.evidence),
        (q :: t).map (fun s => s.feedback), q.max_score⟩ := by
  rw [groupVal, foldl_aggUpd]
  simp [aggInit]

theorem assocFold_agg_eq (gs : List Grade) :
    assocFold aggInit aggUpd (allPairs gs) =
      (firstOccKeys (allPairs gs)).map (fun c =>
        (c, (⟨rawScoresFor gs c,
          ((allPairs gs).filter (fun s => s.category == c)).map (fun s => s.evidence),
          ((allPairs gs).filter (fun s => s.category == c)).map (fun s => s.feedback),
          specCatMaxScore gs c⟩ : CatAgg))) := by
  rw [assocFold_eq]
  apply List.map_congr_left
  intro c hc
  have hne : (allPairs gs).filter (fun s => s.category == c) ≠ [] := by
    apply (filter_category_ne_nil_iff _ c).mpr
    exact (mem_firstOccKeys _ c).mp hc
  cases hft : (allPairs gs).filter (fun s => s.category == c) with
  | nil => exact absurd hft hne
  | cons q t =>
    unfold rawScoresFor specCatMaxScore
    rw [hft, groupVal_agg]

theorem agg_total_raw (gs : List Grade) (rubric : List RubricCategory) :
    ((assocFold aggInit aggUpd (allPairs gs)).map
      (fun kv => kv.2.scores.sum / kv.2.scores.length * rubricWeight rubric kv.1)).sum =
      specTotalScore gs rubric := by
  rw [assocFold_agg_eq, List.map_map]
  rfl

theorem agg_maxp_raw (gs : List Grade) (rubric : List RubricCategory) :
    ((assocFold aggInit aggUpd (allPairs gs)).map
      (fun kv => kv.2.max_score * rubricWeight rubric kv.1)).sum =
      specMaxPossibleScore gs rubric := by
  rw [assocFold_agg_eq, List.map_map]
  rfl

theorem aggregate_total_eq (gs : List Grade) (rubric : List RubricCategory) :
    (aggregate_grades gs rubric).total_score = pyRound (specTotalScore gs rubric) 2 := by
  simp only [aggregate_grades]
  rw [agg_total_raw]

theorem aggregate_maxp_eq (gs : List Grade) (rubric : List RubricCategory) :
    (aggregate_grades gs rubric).max_possible_score =
      pyRound (specMaxPossibleScore gs rubric) 2 := by
  simp only [aggregate_grades]
  rw [agg_maxp_raw]

theorem aggregate_pct_eq (gs : List Grade) (rubric : List RubricCategory) :
    (aggregate_grades gs rubric).percentage =
      pyRound (if 0 < specMaxPossibleScore gs rubric
        then specTotalScore gs rubric / specMaxPossibleScore gs rubric * 100
        else 0) 1 := by
  simp only [aggregate_grades]
  rw [agg_total_raw, agg_maxp_raw]

theorem aggregate_feedback_eq (gs : List Grade) (rubric : List RubricCategory) :
    (aggregate_grades gs rubric).overall_feedback =
      (String.intercalate " " (dedupFirst (gs.map (fun g => g.overall_feedback)))).take
        500 := by
  simp only [aggregate_grades]

theorem aggregate_scores_eq (gs : List Grade) (rubric : List RubricCategory) :
    (aggregate_grades gs rubric).scores =
      (firstOccKeys (allPairs gs)).map (fun c =>
        { category := c,
          score := pyRound (specMeanScore gs c) 2,
          max_score := specCatMaxScore gs c,
          evidence := specFirstEvidence gs c,
          feedback := specFirstFeedback gs c : CategoryScore }) := by
  simp only [aggregate_grades]
  rw [assocFold_agg_eq, List.map_map]
  apply List.map_congr_left
  intro c _
  simp only [Function.comp]
  unfold specMeanScore specFirstEvidence specFirstFeedback
  cases hft : (allPairs gs).filter (fun s => s.category == c) with
  | nil => rfl
  | cons q t => rfl

/-! ### Inequalities for the aggregation invariants -/

theorem rubricWeight_nonneg (rubric : List RubricCategory)
    (h : ∀ cat ∈ rubric, 0 ≤ cat.weight) (c : String) : 0 ≤ rubricWeight rubric c := by
  unfold rubricWeight
  cases hf : rubric.reverse.find? (fun cat => cat.name == c) with
  | none => norm_num
  | some cat =>
    exact h cat (List.mem_reverse.mp (List.mem_of_find?_eq_some hf))

theorem specMeanScore_nonneg (gs : List Grade) (c : String)
    (hb : ∀ s ∈ allPairs gs, 0 ≤ s.score) : 0 ≤ specMeanScore gs c := by
  unfold specMeanScore
  apply div_nonneg
  · apply List.sum_nonneg
    intro x hx
    obtain ⟨s, hs, rfl⟩ := List.mem_map.mp hx
    exact hb s (List.mem_of_mem_filter hs)
  · positivity

theorem specCatMaxScore_nonneg (gs : List Grade) (c : String)
    (hb : ∀ s ∈ allPairs gs, 0 ≤ s.score ∧ s.score ≤ s.max_score) :
    0 ≤ specCatMaxScore gs c := by
  unfold specCatMaxScore
  cases hft : (allPairs gs).filter (fun s => s.category == c) with
  | nil => norm_num
  | cons q t =>
    have hq : q ∈ allPairs gs := by
      apply List.mem_of_mem_filter (p := fun s => s.category == c)
      rw [hft]
      exact List.mem_cons_self q t
    have := hb q hq
    linarith

theorem specMeanScore_le_catMax (gs : List Grade) (c : String)
    (hb : ∀ s ∈ allPairs gs, s.score ≤ s.max_score)
    (hsame : ∀ s ∈ allPairs gs, ∀ t ∈ allPairs gs,
      s.category = t.category → s.max_score = t.max_score) :
    specMeanScore gs c ≤ specCatMaxScore gs c := by
  unfold specMeanScore specCatMaxScore rawScoresFor
  cases hft : (allPairs gs).filter (fun s => s.category == c) with
  | nil => simp
  | cons q t =>
    have hmem : ∀ s ∈ q :: t, s ∈ allPairs gs ∧ s.category = c := by
      intro s hs
      rw [← hft] at hs
      refine ⟨List.mem_of_mem_filter hs, ?_⟩
      have := List.of_mem_filter hs
      exact beq_iff_eq.mp this
    have hq : q ∈ allPairs gs := (hmem q (List.mem_cons_self q t)).1
    have hle : ∀ x ∈ (q :: t).map (fun s => s.score), x ≤ q.max_score := by
      intro x hx
      obtain ⟨s, hs, rfl⟩ := List.mem_map.mp hx
      have hsmem := hmem s hs
      have heqmax : s.max_score = q.max_score := by
        apply hsame s hsmem.1 q hq
        rw [hsmem.2, (hmem q (List.mem_cons_self q t)).2]
      rw [← heqmax]
      exact hb s hsmem.1
    have hsum : ((q :: t).map (fun s => s.score)).sum ≤
        ((q :: t).map (fun s => s.score)).length • q.max_score :=
      List.sum_le_card_nsmul _ _ hle
    rw [nsmul_eq_mul] at hsum
    have hlen : (0 : ℚ) < ((q :: t).map (fun s => s.score)).length := by
      simp
      positivity
    rw [div_le_iff₀ hlen]
    calc ((q :: t).map (fun s => s.score)).sum
        ≤ ((q :: t).map (fun s => s.score)).length * q.max_score := hsum
      _ = q.max_score * ((q :: t).map (fun s => s.score)).length := by ring

theorem specTotalScore_nonneg (gs : List Grade) (rubric : List RubricCategory)
    (hb : ∀ s ∈ allPairs gs, 0 ≤ s.score)
    (hw : ∀ cat ∈ rubric, 0 ≤ cat.weight) : 0 ≤ specTotalScore gs rubric := by
  apply List.sum_nonneg
  intro x hx
  obtain ⟨c, _, rfl⟩ := List.mem_map.mp hx
  exact mul_nonneg (specMeanScore_nonneg gs c hb) (rubricWeight_nonneg rubric hw c)

theorem specMaxPossibleScore_nonneg (gs : List Grade) (rubric : List RubricCategory)
    (hb : ∀ s ∈ allPairs gs, 0 ≤ s.score ∧ s.score ≤ s.max_score)
    (hw : ∀ cat ∈ rubric, 0 ≤ cat.weight) : 0 ≤ specMaxPossibleScore gs rubric := by
  apply List.sum_nonneg
  intro x hx
  obtain ⟨c, _, rfl⟩ := List.mem_map.mp hx
  exact mul_nonneg (specCatMaxScore_nonneg gs c hb) (rubricWeight_nonneg rubric hw c)

theorem specTotalScore_le_maxPossible (gs : List Grade) (rubric : List RubricCategory)
    (hb : ∀ s ∈ allPairs gs, 0 ≤ s.score ∧ s.score ≤ s.max_score)
    (hsame : ∀ s ∈ allPairs gs, ∀ t ∈ allPairs gs,
      s.category = t.category → s.max_score = t.max_score)
    (hw : ∀ cat ∈ rubric, 0 ≤ cat.weight) :
    specTotalScore gs rubric ≤ specMaxPossibleScore gs rubric := by
  apply List.sum_le_sum
  intro c _
  apply mul_le_mul_of_nonneg_right
  · exact specMeanScore_le_catMax gs c (fun s hs => (hb s hs).2) hsame
  · exact rubricWeight_nonneg rubric hw c

/-! ### `grade_with_council` (`backend/app/services/llm.py`, lines 291-393) -/

/-- Build one `round1_grades`/`round2_grades` entry (lines 324-332):
the model name together with the grading result and call metadata. -/
def mkGrade (model : String) (o : GradeOutcome) : Grade :=
  ⟨model, o.scores, o.overall_feedback, o.confidence, o.prompt_tokens,
    o.completion_tokens, o.latency_ms⟩

/-- Collect one round's surviving grades: `asyncio.gather` with
`return_exceptions=True` zipped against the model list, dropping
failures (lines 315-332 and 364-380). The outcome oracle gives each
model's result; `none` is a raised exception. -/
def collectRound (models : List String) (oracle : String → Option GradeOutcome) :
    List Grade :=
  models.filterMap (fun m => (oracle m).map (mkGrade m))

/-- Mirrors `grade_with_council`: round-1 fan-out over `models`, fatal
error on zero survivors, agreement check against the threshold, optional
round-2 fan-out over the SAME `models` list, fallback to round-1 results
when round 2 wholly fails (`round2_grades if round2_grades else None`),
and final aggregation. A `ZeroDivisionError` inside `calculate_agreement`
escapes to the caller unhandled. -/
def grade_with_council (models : List String)
    (round1 round2 : String → Option GradeOutcome)
    (rubric : List RubricCategory) (agreement_threshold : ℚ) :
    Except CouncilError CouncilOutput :=
  let round1_grades := collectRound models round1
  if round1_grades = [] then .error .allGradersFailed
  else
    match calculate_agreement round1_grades with
    | .error _ => .error .zeroDivision
    | .ok agreement =>
      if agreement_threshold ≤ agreement then
        .ok { round1_grades := round1_grades,
              round2_grades := none,
              final_grade := aggregate_grades round1_grades rubric,
              agreement_score := agreement,
              rounds_used := 1 }
      else
        let round2_grades := collectRound models round2
        let grades_to_use := if round2_grades = [] then round1_grades else round2_grades
        match calculate_agreement grades_to_use with
        | .error _ => .error .zeroDivision
        | .ok final_agreement =>
          .ok { round1_grades := round1_grades,
                round2_grades := if round2_grades = [] then none else some round2_grades,
                final_grade := aggregate_grades grades_to_use rubric,
                agreement_score := final_agreement,
                rounds_used := if round2_grades = [] then 1 else 2 }

/-! ### `call_llm` retry behaviour (`backend/app/services/llm.py`, lines 68-138) -/

/-- Mirrors `LLMResponse` in `backend/app/services/llm.py`. -/
structure LLMResponse where
  content : String
  model : String
  prompt_tokens : ℕ
  completion_tokens : ℕ
  latency_ms : ℕ
deriving DecidableEq

/-- The errors one `call_llm` body run can raise: a transient provider
failure from `litellm.acompletion`, or the `ValueError` raised when the
user-supplied credential lacks the key the model's provider needs. -/
inductive CallError where
  | transientError
  | missingKey (msg : String)
deriving DecidableEq

/-- Which user keys are present (truthiness of `user_keys.get(...)`). -/
structure UserKeys where
  openai : Bool
  anthropic : Bool
  google : Bool
deriving DecidableEq

/-- Bool substring test on the underlying character lists
(Python's `"claude" in model`). -/
def strContains (hay needle : String) : Bool :=
  go needle.toList hay.toList
where
  go (p : List Char) : List Char → Bool
    | [] => p.isPrefixOf []
    | c :: t => p.isPrefixOf (c :: t) || go p t

/-- The key-validation ladder of `call_llm` (lines 96-101): the first
failing check raises a `ValueError` with the corresponding message. -/
def requiredKeyError (model : String) (keys : UserKeys) : Option String :=
  if model.startsWith "gpt" && !keys.openai then
    some "OpenAI API key is required for selected grading model"
  else if strContains model "claude" && !keys.anthropic then
    some "Anthropic API key is required for selected grading model"
  else if strContains model "gemini" && !keys.google then
    some "Google API key is required for selected grading model"
  else none

/-- One attempt of the retried `call_llm` body: the key checks run first
(only in `user_keys` mode), then the provider call. The provider oracle
maps the attempt number to that attempt's outcome. -/
def callBody (model : String) (user_keys_mode : Bool) (keys : UserKeys)
    (provider : ℕ → Except Unit LLMResponse) (attempt : ℕ) :
    Except CallError LLMResponse :=
  if user_keys_mode then
    match requiredKeyError model keys with
    | some msg => .error (.missingKey msg)
    | none =>
      match provider attempt with
      | .ok r => .ok r
      | .error _ => .error .transientError
  else
    match provider attempt with
    | .ok r => .ok r
    | .error _ => .error .transientError

/-- `tenacity.wait_exponential(multiplier, min, max)`: after attempt `n`
wait `clamp(multiplier · 2^(n-1), min, max)` (and at least 0). -/
def wait_exponential (multiplier mn mx : ℚ) (attempt_number : ℕ) : ℚ :=
  max (max 0 mn) (min (multiplier * 2 ^ (attempt_number - 1)) mx)

/-- The wait schedule of the `@retry` decorator on `call_llm`:
`wait_exponential(multiplier=1, min=1, max=10)`. -/
def waitExp (n : ℕ) : ℚ :=
  wait_exponential 1 1 10 n

/-- The `tenacity` retry loop: run attempt `attempt`; on any error with
retries remaining, sleep the scheduled wait and try again. Returns the
final outcome, the number of attempts made, and the waits slept.
`tenacity` retries every exception type by default. -/
def retryAux (body : ℕ → Except CallError LLMResponse) (attempt : ℕ) :
    ℕ → Except CallError LLMResponse × ℕ × List ℚ
  | 0 => (body attempt, attempt, [])
  | remaining + 1 =>
    match body attempt with
    | .ok r => (.ok r, attempt, [])
    | .error _ =>
      let rest := retryAux body (attempt + 1) remaining
      (rest.1, rest.2.1, waitExp attempt :: rest.2.2)

/-- Mirrors `call_llm` under `@retry(stop=stop_after_attempt(3),
wait=wait_exponential(multiplier=1, min=1, max=10))`: up to 3 attempts
of the body. -/
def call_llm (model : String) (user_keys_mode : Bool) (keys : UserKeys)
    (provider : ℕ → Except Unit LLMResponse) :
    Except CallError LLMResponse × ℕ × List ℚ :=
  retryAux (callBody model user_keys_mode keys provider) 1 2

/-! ### Reduction lemmas for `grade_with_council` -/

theorem grade_with_council_allFailed (models : List String)
    (round1 round2 : String → Option GradeOutcome)
    (rubric : List RubricCategory) (th : ℚ)
    (h : collectRound models round1 = []) :
    grade_with_council models round1 round2 rubric th = .error .allGradersFailed := by
  simp only [grade_with_council]
  rw [h]
  rfl

theorem grade_with_council_round1_agree (models : List String)
    (round1 round2 : String → Option GradeOutcome)
    (rubric : List RubricCategory) (th a : ℚ)
    (hne : collectRound models round1 ≠ [])
    (ha : calculate_agreement (collectRound models round1) = .ok a)
    (hth : th ≤ a) :
    grade_with_council models round1 round2 rubric th =
      .ok { round1_grades := collectRound models round1,
            round2_grades := none,
            final_grade := aggregate_grades (collectRound models round1) rubric,
            agreement_score := a,
            rounds_used := 1 } := by
  simp only [grade_with_council]
  rw [if_neg hne, ha]
  dsimp only
  rw [if_pos hth]

theorem grade_with_council_round2_empty (models : List String)
    (round1 round2 : String → Option GradeOutcome)
    (rubric : List RubricCategory) (th a : ℚ)
    (hne : collectRound models round1 ≠ [])
    (ha : calculate_agreement (collectRound models round1) = .ok a)
    (hlt : a < th)
    (h2 : collectRound models round2 = []) :
    grade_with_council models round1 round2 rubric th =
      .ok { round1_grades := collectRound models round1,
            round2_grades := none,
            final_grade := aggregate_grades (collectRound models round1) rubric,
            agreement_score := a,
            rounds_used := 1 } := by
  simp only [grade_with_council]
  rw [if_neg hne, ha]
  dsimp only
  rw [if_neg (not_le.mpr hlt), h2, if_pos rfl, ha]
  rfl

theorem grade_with_council_round2 (models : List String)
    (round1 round2 : String → Option GradeOutcome)
    (rubric : List RubricCategory) (th a a2 : ℚ)
    (hne : collectRound models round1 ≠ [])
    (ha : calculate_agreement (collectRound models round1) = .ok a)
    (hlt : a < th)
    (h2 : collectRound models round2 ≠ [])
    (ha2 : calculate_agreement (collectRound models round2) = .ok a2) :
    grade_with_council models round1 round2 rubric th =
      .ok { round1_grades := collectRound models round1,
            round2_grades := some (collectRound models round2),
            final_grade := aggregate_grades (collectRound models round2) rubric,
            agreement_score := a2,
            rounds_used := 2 } := by
  simp only [grade_with_council]
  rw [if_neg hne, ha]
  dsimp only
  rw [if_neg (not_le.mpr hlt), if_neg h2, ha2]
  dsimp only
  rw [if_neg h2, if_neg h2]

theorem grade_with_council_ok (models : List String)
    (round1 round2 : String → Option GradeOutcome)
    (rubric : List RubricCategory) (th : ℚ)
    (hne : collectRound models round1 ≠ [])
    (h1max : ∀ s ∈ allPairs (collectRound models round1), s.max_score ≠ 0)
    (h2max : ∀ s ∈ allPairs (collectRound models round2), s.max_score ≠ 0) :
    ∃ out, grade_with_council models round1 round2 rubric th = .ok out := by
  have ha := calculate_agreement_eq_spec (collectRound models round1) h1max
  by_cases hth : th ≤ specAgreement (collectRound models round1)
  · exact ⟨_, grade_with_council_round1_agree models round1 round2 rubric th _ hne ha hth⟩
  · push_neg at hth
    by_cases h2 : collectRound models round2 = []
    · exact ⟨_, grade_with_council_round2_empty models round1 round2 rubric th _
        hne ha hth h2⟩
    · have ha2 := calculate_agreement_eq_spec (collectRound models round2) h2max
      exact ⟨_, grade_with_council_round2 models round1 round2 rubric th _ _
        hne ha hth h2 ha2⟩

instance exceptDecidableEq {ε α : Type} [DecidableEq ε] [DecidableEq α] :
    DecidableEq (Except ε α) := fun x y =>
  match x, y with
  | .error a, .error b =>
    if h : a = b then .isTrue (congrArg Except.error h)
    else .isFalse (fun hc => h (Except.error.inj hc))
  | .error _, .ok _ => .isFalse (fun hc => Except.noConfusion hc)
  | .ok _, .error _ => .isFalse (fun hc => Except.noConfusion hc)
  | .ok a, .ok b =>
    if h : a = b then .isTrue (congrArg Except.ok h)
    else .isFalse (fun hc => h (Except.ok.inj hc))

/-! ### Concrete runs used to instantiate and refute claims -/

set_option maxRecDepth 100000

/-- An oracle for a round in which every model's call fails. -/
def cNone : String → Option GradeOutcome := fun _ => none

/-- The rubric of the spec's end-to-end scenario:
Clarity (max 5, weight 1), Depth (max 5, weight 2). -/
def c9rubric : List RubricCategory :=
  [⟨"Clarity", "d", 5, 1⟩, ⟨"Depth", "d", 5, 2⟩]

/-- Grader A of the end-to-end scenario: Clarity 4, Depth 3. -/
def c9oA : GradeOutcome :=
  ⟨[⟨"Clarity", 4, 5, "ea", "fa"⟩, ⟨"Depth", 3, 5, "ea2", "fa2"⟩], "overall A",
    85 / 100, 100, 50, 1200⟩

/-- Grader B of the end-to-end scenario: Clarity 4, Depth 4. -/
def c9oB : GradeOutcome :=
  ⟨[⟨"Clarity", 4, 5, "eb", "fb"⟩, ⟨"Depth", 4, 5, "eb2", "fb2"⟩], "overall B",
    9 / 10, 100, 50, 1100⟩

/-- Grader C of the end-to-end scenario: Clarity 5, Depth 3. -/
def c9oC : GradeOutcome :=
  ⟨[⟨"Clarity", 5, 5, "ec", "fc"⟩, ⟨"Depth", 3, 5, "ec2", "fc2"⟩], "overall C",
    8 / 10, 100, 50, 1000⟩

/-- Round-1 outcomes of the end-to-end scenario. -/
def c9round1 : String → Option GradeOutcome := fun m =>
  if m = "model-a" then some c9oA
  else if m = "model-b" then some c9oB
  else if m = "model-c" then some c9oC
  else none

/-- The three models of the end-to-end scenario. -/
def c9models : List String := ["model-a", "model-b", "model-c"]

/-- Two models used by the smaller concrete runs. -/
def c2models : List String := ["m1", "m2"]

/-- A round-1 oracle whose two survivors disagree maximally on category A
(normalized scores 0 and 1, agreement 0). -/
def cDisagreeR1 : String → Option GradeOutcome := fun m =>
  if m = "m1" then some ⟨[⟨"A", 0, 1, "e1", "f1"⟩], "o1", 1, 1, 1, 1⟩
  else if m = "m2" then some ⟨[⟨"A", 1, 1, "e2", "f2"⟩], "o2", 1, 1, 1, 1⟩
  else none

/-- A round-2 oracle in which both models succeed and agree perfectly. -/
def cAgreeR2 : String → Option GradeOutcome := fun m =>
  if m = "m1" then some ⟨[⟨"A", 1, 1, "e1b", "f1b"⟩], "p1", 1, 1, 1, 1⟩
  else if m = "m2" then some ⟨[⟨"A", 1, 1, "e2b", "f2b"⟩], "p2", 1, 1, 1, 1⟩
  else none

/-- A round-1 oracle with two survivors, one reporting `max_score = 0`. -/
def cZeroMaxR1 : String → Option GradeOutcome := fun m =>
  if m = "m1" then some ⟨[⟨"A", 1, 0, "e", "f"⟩], "f1", 1, 1, 1, 1⟩
  else if m = "m2" then some ⟨[⟨"A", 1, 1, "e", "f"⟩], "f2", 1, 1, 1, 1⟩
  else none

/-- Two grades, one of them reporting `max_score = 0` for category A. -/
def c10bad : List Grade :=
  [⟨"m1", [⟨"A", 1, 0, "e", "f"⟩], "f1", 1, 1, 1, 1⟩,
   ⟨"m2", [⟨"A", 1, 1, "e", "f"⟩], "f2", 1, 1, 1, 1⟩]

/-- Two grades in which grader g1 scores category A twice (entries 1/2
and 1 of max 1) and grader g2 scores only category B: category A has two
contributed entries but only ONE contributing grader. -/
def c4gs : List Grade :=
  [⟨"g1", [⟨"A", 1 / 2, 1, "e1", "f1"⟩, ⟨"A", 1, 1, "e2", "f2"⟩], "o1", 1, 1, 1, 1⟩,
   ⟨"g2", [⟨"B", 1, 1, "e3", "f3"⟩], "o2", 1, 1, 1, 1⟩]

/-- Three graders scoring category A with 1, 0 and 0 out of 5: the mean
raw score is 1/3, which is not representable in 2 decimal digits. -/
def c6gs : List Grade :=
  [⟨"g1", [⟨"A", 1, 5, "e1", "f1"⟩], "o1", 1, 1, 1, 1⟩,
   ⟨"g2", [⟨"A", 0, 5, "e2", "f2"⟩], "o2", 1, 1, 1, 1⟩,
   ⟨"g3", [⟨"A", 0, 5, "e3", "f3"⟩], "o3", 1, 1, 1, 1⟩]

/-- A rubric with the single category A (max 5, weight 1). -/
def c6rubric : List RubricCategory := [⟨"A", "d", 5, 1⟩]

/-! ### Claim C10 -/

/-- Claim C10 (confirmed): the agreement calculator divides `score` by
`max_score` with no guard. For every result list whose category scores all
have `max_score ≠ 0` the computation is total (the division-error branch
is unreachable), while the concrete list `c10bad`, which contains a
`max_score = 0` entry, makes the computation fail with a division error
instead of returning a value. -/
theorem C10_division_guard :
    (∀ gs : List Grade, (∀ s ∈ allPairs gs, s.max_score ≠ 0) →
      ∃ v, calculate_agreement gs = .ok v) ∧
    ((∃ s ∈ allPairs c10bad, s.max_score = 0) ∧
      calculate_agreement c10bad = .error ()) := by
  refine ⟨fun gs h => ⟨specAgreement gs, calculate_agreement_eq_spec gs h⟩, ?_, ?_⟩
  · with_unfolding_all decide
  · with_unfolding_all decide

/-- Witness for C10 at a concrete input: the end-to-end grades have no
zero `max_score`, so the computation returns a value. -/
theorem C10_division_guard_witness :
    ∃ v, calculate_agreement (collectRound c9models c9round1) = .ok v :=
  C10_division_guard.1 (collectRound c9models c9round1) (by with_unfolding_all decide)

/-! ### Claim C4 -/

/-- Claim C4 as stated is refuted at `c4gs`: category A has two contributed
score entries but only one contributing GRADER, so the claim's reading
(`1.0` when no category has at least 2 contributing graders) demands 1.0,
while `calculate_agreement`, which counts contributed entries, returns 3/4. -/
theorem C4_counterexample :
    calculate_agreement c4gs = .ok (3 / 4) ∧ claimAgreement c4gs = 1 ∧
      (3 / 4 : ℚ) ≠ 1 := by
  refine ⟨?_, ?_, ?_⟩ <;> with_unfolding_all decide

/-- Claim C4 amended (counting contributed score entries, not graders):
every value the agreement calculator returns equals `specAgreement`:
1.0 for fewer than 2 results, 1.0 when no category has at least 2
contributed score entries, and otherwise `max(0, 1 − min(4·avgVariance, 1))`
with `avgVariance` the mean population variance of the normalized scores of
the categories with at least 2 entries; the value always lies in [0, 1]. -/
theorem C4_amended (gs : List Grade) (v : ℚ)
    (h : calculate_agreement gs = .ok v) :
    v = specAgreement gs ∧ (gs.length < 2 → v = 1) ∧
      (specVariances gs = [] → v = 1) ∧ 0 ≤ v ∧ v ≤ 1 := by
  have hv := calculate_agreement_spec gs v h
  refine ⟨hv, ?_, ?_, ?_, ?_⟩
  · intro hl
    rw [hv, specAgreement, if_pos hl]
  · intro he
    rw [hv]
    unfold specAgreement
    rw [he]
    by_cases hl : gs.length < 2
    · rw [if_pos hl]
    · rw [if_neg hl, if_pos rfl]
  · rw [hv]
    exact specAgreement_nonneg gs
  · rw [hv]
    exact specAgreement_le_one gs

/-- Witness for C4 at a concrete input (the `c4gs` run, which returns 3/4). -/
theorem C4_amended_witness :
    (3 / 4 : ℚ) = specAgreement c4gs ∧ (c4gs.length < 2 → (3 / 4 : ℚ) = 1) ∧
      (specVariances c4gs = [] → (3 / 4 : ℚ) = 1) ∧ (0 : ℚ) ≤ 3 / 4 ∧
      (3 / 4 : ℚ) ≤ 1 :=
  C4_amended c4gs (3 / 4) (by with_unfolding_all decide)

/-! ### Claim C3 -/

/-- Claim C3 as stated is refuted at a concrete run: the round-1 fan-out
over `cZeroMaxR1` yields two survivors (so the run is NOT a total round-1
failure), yet `grade_with_council` raises — with a division error, not
`AllGradersFailedError` — because one surviving score has `max_score = 0`. -/
theorem C3_counterexample :
    collectRound c2models cZeroMaxR1 ≠ [] ∧
    grade_with_council c2models cZeroMaxR1 cNone [] (4 / 5) =
      .error .zeroDivision := by
  constructor
  · with_unfolding_all decide
  · with_unfolding_all decide

/-- Claim C3 amended: when every round-1 call fails, `grade_with_council`
raises the single fatal `AllGradersFailedError` and attempts no round 2
(the result does not depend on the round-2 oracle); a run with at least
one round-1 survivor proceeds without raising PROVIDED every category
score surviving either round has a nonzero `max_score` (otherwise the
unguarded division escalates a `ZeroDivisionError`, see C10). -/
theorem C3_amended :
    (∀ (models : List String) (r1 : String → Option GradeOutcome)
      (rubric : List RubricCategory) (th : ℚ),
      collectRound models r1 = [] →
      ∀ r2, grade_with_council models r1 r2 rubric th =
        .error .allGradersFailed) ∧
    (∀ (models : List String) (r1 r2 : String → Option GradeOutcome)
      (rubric : List RubricCategory) (th : ℚ),
      collectRound models r1 ≠ [] →
      (∀ s ∈ allPairs (collectRound models r1), s.max_score ≠ 0) →
      (∀ s ∈ allPairs (collectRound models r2), s.max_score ≠ 0) →
      ∃ out, grade_with_council models r1 r2 rubric th = .ok out) := by
  constructor
  · intro models r1 rubric th h r2
    exact grade_with_council_allFailed models r1 r2 rubric th h
  · intro models r1 r2 rubric th hne h1 h2
    exact grade_with_council_ok models r1 r2 rubric th hne h1 h2

/-- Witness for C3 at concrete inputs: a run in which every round-1 call
fails raises the fatal error, and the end-to-end run returns a result. -/
theorem C3_amended_witness :
    grade_with_council c2models cNone cNone [] (4 / 5) =
      .error .allGradersFailed ∧
    ∃ out, grade_with_council c9models c9round1 cNone c9rubric (4 / 5) = .ok out :=
  ⟨C3_amended.1 c2models cNone [] (4 / 5) (by with_unfolding_all decide) cNone,
   C3_amended.2 c9models c9round1 cNone c9rubric (4 / 5)
     (by with_unfolding_all decide) (by with_unfolding_all decide)
     (by with_unfolding_all decide)⟩

/-! ### Claim C1 -/

/-- Claim C1 as stated is refuted at a concrete run: round 1 survives with
agreement 0 < 4/5, every round-2 call fails, and the result reports
`round2_grades = none` (Python `None`), NOT an empty list — the code runs
`round2_grades if round2_grades else None`. -/
theorem C1_counterexample :
    (grade_with_council c2models cDisagreeR1 cNone [] (4 / 5)).map
      (fun o => o.round2_grades) = .ok none ∧
    (grade_with_council c2models cDisagreeR1 cNone [] (4 / 5)).map
      (fun o => o.round2_grades) ≠ .ok (some []) := by
  constructor
  · with_unfolding_all decide
  · with_unfolding_all decide

/-- Claim C1 amended: when round 2 is attempted and every round-2 call
fails, `grade_with_council` finalizes with the round-1 result set,
reports `rounds_used = 1` and the round-1 agreement score, and reports
`round2_grades` as null (`none`) — indistinguishable from a run that
agreed at round 1 — not as an empty set. -/
theorem C1_amended (models : List String)
    (r1 r2 : String → Option GradeOutcome)
    (rubric : List RubricCategory) (th a : ℚ)
    (hne : collectRound models r1 ≠ [])
    (ha : calculate_agreement (collectRound models r1) = .ok a)
    (hlt : a < th)
    (h2 : collectRound models r2 = []) :
    grade_with_council models r1 r2 rubric th =
      .ok { round1_grades := collectRound models r1,
            round2_grades := none,
            final_grade := aggregate_grades (collectRound models r1) rubric,
            agreement_score := a,
            rounds_used := 1 } :=
  grade_with_council_round2_empty models r1 r2 rubric th a hne ha hlt h2

/-- Witness for C1 at a concrete input: the disagreement run with a wholly
failed round 2. -/
theorem C1_amended_witness :
    grade_with_council c2models cDisagreeR1 cNone [] (4 / 5) =
      .ok { round1_grades := collectRound c2models cDisagreeR1,
            round2_grades := none,
            final_grade := aggregate_grades (collectRound c2models cDisagreeR1) [],
            agreement_score := 0,
            rounds_used := 1 } :=
  C1_amended c2models cDisagreeR1 cNone [] (4 / 5) 0
    (by with_unfolding_all decide) (by with_unfolding_all decide)
    (by norm_num) (by with_unfolding_all decide)

/-! ### Claim C5 -/

/-- Claim C5 (confirmed): with at least one round-1 survivor, if the
round-1 agreement meets the threshold the run ends with
`rounds_used = 1`, `round2_grades = none` and the final grade aggregated
from round-1 results; otherwise round 2 is collected over the ORIGINAL
model list (`collectRound models r2`, not just round-1 survivors), and if
it has at least one survivor the run ends with `rounds_used = 2`, the
final grade aggregated from the round-2 set and the agreement score
recomputed over that set. -/
theorem C5_threshold_branch :
    (∀ (models : List String) (r1 r2 : String → Option GradeOutcome)
      (rubric : List RubricCategory) (th a : ℚ),
      collectRound models r1 ≠ [] →
      calculate_agreement (collectRound models r1) = .ok a →
      th ≤ a →
      grade_with_council models r1 r2 rubric th =
        .ok { round1_grades := collectRound models r1,
              round2_grades := none,
              final_grade := aggregate_grades (collectRound models r1) rubric,
              agreement_score := a,
              rounds_used := 1 }) ∧
    (∀ (models : List String) (r1 r2 : String → Option GradeOutcome)
      (rubric : List RubricCategory) (th a a2 : ℚ),
      collectRound models r1 ≠ [] →
      calculate_agreement (collectRound models r1) = .ok a →
      a < th →
      collectRound models r2 ≠ [] →
      calculate_agreement (collectRound models r2) = .ok a2 →
      grade_with_council models r1 r2 rubric th =
        .ok { round1_grades := collectRound models r1,
              round2_grades := some (collectRound models r2),
              final_grade := aggregate_grades (collectRound models r2) rubric,
              agreement_score := a2,
              rounds_used := 2 }) := by
  constructor
  · intro models r1 r2 rubric th a hne ha hth
    exact grade_with_council_round1_agree models r1 r2 rubric th a hne ha hth
  · intro models r1 r2 rubric th a a2 hne ha hlt h2 ha2
    exact grade_with_council_round2 models r1 r2 rubric th a a2 hne ha hlt h2 ha2

/-- Witness for C5 at concrete inputs: the end-to-end run agrees at round 1
(agreement 217/225 ≥ 4/5); the disagreement run goes to round 2 where both
models of the original list succeed and agree. -/
theorem C5_threshold_branch_witness :
    grade_with_council c9models c9round1 cNone c9rubric (4 / 5) =
      .ok { round1_grades := collectRound c9models c9round1,
            round2_grades := none,
            final_grade := aggregate_grades (collectRound c9models c9round1) c9rubric,
            agreement_score := 217 / 225,
            rounds_used := 1 } ∧
    grade_with_council c2models cDisagreeR1 cAgreeR2 [] (4 / 5) =
      .ok { round1_grades := collectRound c2models cDisagreeR1,
            round2_grades := some (collectRound c2models cAgreeR2),
            final_grade := aggregate_grades (collectRound c2models cAgreeR2) [],
            agreement_score := 1,
            rounds_used := 2 } :=
  ⟨C5_threshold_branch.1 c9models c9round1 cNone c9rubric (4 / 5) (217 / 225)
     (by with_unfolding_all decide) (by with_unfolding_all decide)
     (by norm_num),
   C5_threshold_branch.2 c2models cDisagreeR1 cAgreeR2 [] (4 / 5) 0 1
     (by with_unfolding_all decide) (by with_unfolding_all decide)
     (by norm_num) (by with_unfolding_all decide) (by with_unfolding_all decide)⟩

theorem roundHalfEven_zero : roundHalfEven 0 = 0 := by
  have h := roundHalfEven_intCast 0
  simpa using h

theorem pyRound_zero (n : ℕ) : pyRound 0 n = 0 := by
  unfold pyRound
  rw [zero_mul, roundHalfEven_zero]
  simp

theorem string_take_length_le (s : String) (n : ℕ) : (s.take n).length ≤ n := by
  rw [String.take_eq]
  simp only [String.length]
  exact List.length_take_le n s.data

/-! ### Claim C6 -/

/-- Claim C6 as stated is refuted at a concrete input: three graders score
category A (weight 1) with 1, 0 and 0, so `Σ(meanScore·weight) = 1/3`,
but the aggregator reports `total_score = 0.33` because the code rounds
the total to 2 decimal places (`round(total_score, 2)`). -/
theorem C6_counterexample :
    (aggregate_grades c6gs c6rubric).total_score = 33 / 100 ∧
    specTotalScore c6gs c6rubric = 1 / 3 ∧ (33 / 100 : ℚ) ≠ 1 / 3 := by
  refine ⟨?_, ?_, ?_⟩ <;> with_unfolding_all decide

/-- Claim C6 amended (adding the rounding the code performs): for every
grader-result list and rubric, the aggregator reports
`totalScore = round₂(Σ(meanScore_c · weight_c))` (weights looked up by
name with fallback 1.0, mean over the raw contributed scores),
`maxPossibleScore = round₂(Σ(maxScore_c · weight_c))` with `maxScore_c`
from the first contributing report, and
`percentage = round₁(100·total/maxPossible)` computed from the UNROUNDED
sums when the unrounded `maxPossibleScore` is positive, else 0. -/
theorem C6_amended (gs : List Grade) (rubric : List RubricCategory) :
    (aggregate_grades gs rubric).total_score =
      pyRound (specTotalScore gs rubric) 2 ∧
    (aggregate_grades gs rubric).max_possible_score =
      pyRound (specMaxPossibleScore gs rubric) 2 ∧
    (aggregate_grades gs rubric).percentage =
      pyRound (if 0 < specMaxPossibleScore gs rubric
        then specTotalScore gs rubric / specMaxPossibleScore gs rubric * 100
        else 0) 1 ∧
    (specMaxPossibleScore gs rubric = 0 →
      (aggregate_grades gs rubric).percentage = 0) := by
  refine ⟨aggregate_total_eq gs rubric, aggregate_maxp_eq gs rubric,
    aggregate_pct_eq gs rubric, ?_⟩
  intro h0
  rw [aggregate_pct_eq gs rubric, h0, if_neg (lt_irrefl 0)]
  exact pyRound_zero 1

/-- Witness for C6 at the concrete `c6gs` input. -/
theorem C6_amended_witness :
    (aggregate_grades c6gs c6rubric).total_score =
      pyRound (specTotalScore c6gs c6rubric) 2 ∧
    (aggregate_grades c6gs c6rubric).max_possible_score =
      pyRound (specMaxPossibleScore c6gs c6rubric) 2 ∧
    (aggregate_grades c6gs c6rubric).percentage =
      pyRound (if 0 < specMaxPossibleScore c6gs c6rubric
        then specTotalScore c6gs c6rubric / specMaxPossibleScore c6gs c6rubric * 100
        else 0) 1 ∧
    (specMaxPossibleScore c6gs c6rubric = 0 →
      (aggregate_grades c6gs c6rubric).percentage = 0) :=
  C6_amended c6gs c6rubric

/-! ### Claim C7 -/

/-- Claim C7 (confirmed): if every category score satisfies
`0 ≤ score ≤ max_score`, contributors to a category agree on `max_score`,
and rubric weights are non-negative, then the aggregated grade satisfies
`totalScore ≤ maxPossibleScore` and `percentage ∈ [0, 100]`, with
`percentage = 0` when the (weighted) maximum possible score is 0 —
regardless of how many graders contributed. -/
theorem C7_invariants (gs : List Grade) (rubric : List RubricCategory)
    (hb : ∀ s ∈ allPairs gs, 0 ≤ s.score ∧ s.score ≤ s.max_score)
    (hsame : ∀ s ∈ allPairs gs, ∀ t ∈ allPairs gs,
      s.category = t.category → s.max_score = t.max_score)
    (hw : ∀ cat ∈ rubric, 0 ≤ cat.weight) :
    (aggregate_grades gs rubric).total_score ≤
      (aggregate_grades gs rubric).max_possible_score ∧
    0 ≤ (aggregate_grades gs rubric).percentage ∧
    (aggregate_grades gs rubric).percentage ≤ 100 ∧
    (specMaxPossibleScore gs rubric = 0 →
      (aggregate_grades gs rubric).percentage = 0) := by
  have hT0 : 0 ≤ specTotalScore gs rubric :=
    specTotalScore_nonneg gs rubric (fun s hs => (hb s hs).1) hw
  have hTM : specTotalScore gs rubric ≤ specMaxPossibleScore gs rubric :=
    specTotalScore_le_maxPossible gs rubric hb hsame hw
  have h100 : pyRound (100 : ℚ) 1 = 100 := by with_unfolding_all decide
  refine ⟨?_, ?_, ?_, ?_⟩
  · rw [aggregate_total_eq gs rubric, aggregate_maxp_eq gs rubric]
    exact pyRound_mono 2 hTM
  · rw [aggregate_pct_eq gs rubric]
    by_cases hM : 0 < specMaxPossibleScore gs rubric
    · rw [if_pos hM]
      have hp0 : 0 ≤ specTotalScore gs rubric / specMaxPossibleScore gs rubric * 100 := by
        positivity
      have := pyRound_mono 1 hp0
      rwa [pyRound_zero 1] at this
    · rw [if_neg hM, pyRound_zero 1]
  · rw [aggregate_pct_eq gs rubric]
    by_cases hM : 0 < specMaxPossibleScore gs rubric
    · rw [if_pos hM]
      have hdiv : specTotalScore gs rubric / specMaxPossibleScore gs rubric ≤ 1 :=
        (div_le_one hM).mpr hTM
      have hp100 : specTotalScore gs rubric / specMaxPossibleScore gs rubric * 100 ≤
          100 := by nlinarith
      have := pyRound_mono 1 hp100
      rwa [h100] at this
    · rw [if_neg hM, pyRound_zero 1]
      norm_num
  · intro h0
    rw [aggregate_pct_eq gs rubric, h0, if_neg (lt_irrefl 0)]
    exact pyRound_zero 1

/-- Witness for C7 at the end-to-end round-1 grades and rubric. -/
theorem C7_invariants_witness :
    (aggregate_grades (collectRound c9models c9round1) c9rubric).total_score ≤
      (aggregate_grades (collectRound c9models c9round1) c9rubric).max_possible_score ∧
    0 ≤ (aggregate_grades (collectRound c9models c9round1) c9rubric).percentage ∧
    (aggregate_grades (collectRound c9models c9round1) c9rubric).percentage ≤ 100 ∧
    (specMaxPossibleScore (collectRound c9models c9round1) c9rubric = 0 →
      (aggregate_grades (collectRound c9models c9round1) c9rubric).percentage = 0) :=
  C7_invariants (collectRound c9models c9round1) c9rubric
    (by with_unfolding_all decide) (by with_unfolding_all decide)
    (by with_unfolding_all decide)

/-! ### Claim C8 -/

/-- Claim C8 (confirmed): for every grader-result list, each aggregated
category's evidence and feedback are the FIRST contributing report's
evidence and feedback verbatim, and the overall feedback is the
deduplicated set of the graders' `overall_feedback` strings joined with
spaces and truncated to at most 500 characters. (Python's `set()` has no
specified order; first-occurrence order is the modelled instance.) -/
theorem C8_first_evidence_feedback (gs : List Grade)
    (rubric : List RubricCategory) :
    ((aggregate_grades gs rubric).scores.map
      (fun e => (e.category, e.evidence, e.feedback))) =
      (firstOccKeys (allPairs gs)).map
        (fun c => (c, specFirstEvidence gs c, specFirstFeedback gs c)) ∧
    (aggregate_grades gs rubric).overall_feedback =
      (String.intercalate " "
        (dedupFirst (gs.map (fun g => g.overall_feedback)))).take 500 ∧
    (aggregate_grades gs rubric).overall_feedback.length ≤ 500 ∧
    (dedupFirst (gs.map (fun g => g.overall_feedback))).Nodup ∧
    (∀ s, s ∈ dedupFirst (gs.map (fun g => g.overall_feedback)) ↔
      s ∈ gs.map (fun g => g.overall_feedback)) := by
  refine ⟨?_, aggregate_feedback_eq gs rubric, ?_, nodup_dedupFirst _,
    mem_dedupFirst _⟩
  · rw [aggregate_scores_eq, List.map_map]
    rfl
  · rw [aggregate_feedback_eq gs rubric]
    exact string_take_length_le _ 500

/-! ### Claim C9 -/

/-- Claim C9 (confirmed): on the spec's end-to-end scenario (rubric
Clarity max 5 weight 1 / Depth max 5 weight 2; graders A, B, C as given;
threshold 0.8) the per-category population variances are 2/225 ≈ 0.00889,
the agreement is 217/225 ≈ 0.964 ≥ 0.8, the run uses one round, and the
final grade has `total_score = 11`, `max_possible_score = 15` and
`percentage = 73.3`. -/
theorem C9_end_to_end :
    (grade_with_council c9models c9round1 cNone c9rubric (4 / 5)).map
      (fun o => (o.rounds_used, o.agreement_score, o.final_grade.total_score,
        o.final_grade.max_possible_score, o.final_grade.percentage)) =
      .ok (1, 217 / 225, 11, 15, 733 / 10) ∧
    specVariances (collectRound c9models c9round1) = [2 / 225, 2 / 225] ∧
    |(217 : ℚ) / 225 - 964 / 1000| < 1 / 1000 ∧
    |(2 : ℚ) / 225 - 889 / 100000| < 1 / 10000 := by
  refine ⟨?_, ?_, ?_, ?_⟩ <;> with_unfolding_all decide

/-! ### Claim C2 -/

/-- No user keys at all. -/
def c2noKeys : UserKeys := ⟨false, false, false⟩

/-- A provider that would succeed on every attempt. -/
def c2okProvider : ℕ → Except Unit LLMResponse :=
  fun _ => .ok ⟨"ok", "gpt-4o", 1, 1, 1⟩

/-- Claim C2 as stated is refuted at a concrete input: calling model
`gpt-4o` in user-keys mode with no OpenAI key raises the missing-key
`ValueError` INSIDE the retried body, and `tenacity`'s default retry
predicate retries every exception type — so the call makes 3 attempts
with waits 1 and 2 between them instead of failing immediately after 1
attempt with no waits. -/
theorem C2_counterexample :
    call_llm "gpt-4o" true c2noKeys c2okProvider =
      (.error (.missingKey "OpenAI API key is required for selected grading model"),
        3, [1, 2]) ∧ (3 : ℕ) ≠ 1 := by
  constructor
  · with_unfolding_all decide
  · decide

/-- Claim C2 amended: EVERY error — transient provider failures and the
missing-credential `ValueError` alike — is retried up to 3 attempts
total, with exponential backoff waits `waitExp k = clamp(2^(k−1), 1, 10)`
between attempts (so 1 then 2 time-units for a full run, never above
10); a first-attempt success makes exactly one attempt with no waits. -/
theorem C2_amended :
    (∀ (body : ℕ → Except CallError LLMResponse) (e : CallError),
      (∀ n, body n = .error e) →
      retryAux body 1 2 = (.error e, 3, [waitExp 1, waitExp 2])) ∧
    (∀ (model : String) (keys : UserKeys)
      (provider : ℕ → Except Unit LLMResponse) (msg : String),
      requiredKeyError model keys = some msg →
      call_llm model true keys provider =
        (.error (.missingKey msg), 3, [waitExp 1, waitExp 2])) ∧
    (∀ (model : String) (keys : UserKeys)
      (provider : ℕ → Except Unit LLMResponse),
      (∀ n, provider n = .error ()) →
      call_llm model false keys provider =
        (.error .transientError, 3, [waitExp 1, waitExp 2])) ∧
    (∀ (model : String) (keys : UserKeys)
      (provider : ℕ → Except Unit LLMResponse) (r : LLMResponse),
      provider 1 = .ok r →
      call_llm model false keys provider = (.ok r, 1, [])) ∧
    (waitExp 1 = 1 ∧ waitExp 2 = 2 ∧ ∀ n, 1 ≤ waitExp n ∧ waitExp n ≤ 10) := by
  have hconst : ∀ (body : ℕ → Except CallError LLMResponse) (e : CallError),
      (∀ n, body n = .error e) →
      retryAux body 1 2 = (.error e, 3, [waitExp 1, waitExp 2]) := by
    intro body e h
    simp [retryAux, h 1, h 2, h 3]
  refine ⟨hconst, ?_, ?_, ?_, ?_, ?_, ?_⟩
  · intro model keys provider msg hmsg
    apply hconst
    intro n
    simp [callBody, hmsg]
  · intro model keys provider hp
    apply hconst
    intro n
    simp [callBody, hp n]
  · intro model keys provider r hp
    simp [call_llm, retryAux, callBody, hp]
  · with_unfolding_all decide
  · with_unfolding_all decide
  · intro n
    constructor
    · unfold waitExp wait_exponential
      calc (1 : ℚ) ≤ max 0 1 := by norm_num
        _ ≤ max (max 0 1) (min (1 * 2 ^ (n - 1)) 10) := le_max_left _ _
    · unfold waitExp wait_exponential
      apply max_le
      · norm_num
      · exact min_le_right _ 10

/-- A provider failing on every attempt. -/
def c2badProvider : ℕ → Except Unit LLMResponse := fun _ => .error ()

/-- Witness for C2 at concrete inputs: a persistently failing provider is
retried to 3 attempts with waits `[waitExp 1, waitExp 2]`; a provider that
succeeds at attempt 1 stops after one attempt; a sample wait is in
`[1, 10]`. -/
theorem C2_amended_witness :
    call_llm "m" false c2noKeys c2badProvider =
      (.error .transientError, 3, [waitExp 1, waitExp 2]) ∧
    call_llm "m" false c2noKeys c2okProvider =
      (.ok ⟨"ok", "gpt-4o", 1, 1, 1⟩, 1, []) ∧
    1 ≤ waitExp 5 ∧ waitExp 5 ≤ 10 :=
  ⟨C2_amended.2.2.1 "m" c2noKeys c2badProvider (fun _ => rfl),
   C2_amended.2.2.2.1 "m" c2noKeys c2okProvider ⟨"ok", "gpt-4o", 1, 1, 1⟩ rfl,
   (C2_amended.2.2.2.2.2.2 5).1, (C2_amended.2.2.2.2.2.2 5).2⟩
